import Mathlib

/-!
Verification of the restaurant-to-legal-entity matching pipeline
(`src/matcher/matcher.py`, `src/searcher/searcher.py`, `src/clients/zyte_client.py`,
`src/core/models.py`, `src/core/api_models.py`).

The Python code is embedded shallowly:

* Pure string manipulation (`_normalize_name`, `_extract_postal_code`,
  `_extract_city`, `_clean_json_response`-level parsing outcomes) is translated
  into executable Lean functions over `List Char` / `String`.  Python's `re`
  substitutions are modelled by an explicit scanner over the pattern alternatives
  of `LEGAL_TERMS` / `COMMON_WORDS`, in the same alternation order, with the same
  word-boundary and greedy optional-dot semantics.
* Python floats (fuzzy scores) are modelled as rationals `ℚ`.
* External effects (registry search, detail fetch, LLM call, HTTP attempts,
  the rapidfuzz `token_sort_ratio` library primitive) are parameters of the
  embedded functions, so the theorems quantify over every possible behaviour of
  those collaborators.
* Python exceptions are modelled with `Option`/`Except`: `none`/`.error` marks
  the paths on which the original code raises.

Modelling conventions for Python semantics:

* `str.lower` is modelled for ASCII plus the Spanish letters appearing in the
  term lists; other code points are left unchanged.
* `\w` (regex word character) is modelled as ASCII alphanumerics, `_`, and all
  non-ASCII code points; this agrees with Python's Unicode `\w` on every
  character class the registry data and the term dictionaries exercise.
* Truthiness of `Optional[str]` values (`if x:`) is `x` being present and
  non-empty; truthiness of `Optional[int]` is being present and non-zero.
-/

/-! ### Character helpers -/

/-- Python `str.lower` restricted to the character classes used by the
normalization dictionaries: ASCII letters plus accented Spanish letters. -/
def toLowerChar (c : Char) : Char :=
  match c with
  | 'Á' => 'á'
  | 'É' => 'é'
  | 'Í' => 'í'
  | 'Ó' => 'ó'
  | 'Ú' => 'ú'
  | 'Ñ' => 'ñ'
  | 'Ü' => 'ü'
  | _ => c.toLower

/-- Regex `\w`: word character.  ASCII alphanumerics, underscore, and (as an
approximation of Unicode word characters) every non-ASCII code point. -/
def isWordChar (c : Char) : Bool :=
  c.isAlphanum || c = '_' || decide (c.val ≥ 128)

/-- Regex `\s`: whitespace character. -/
def isSpaceChar (c : Char) : Bool :=
  c.isWhitespace

/-- Python `str.strip` on a character list. -/
def stripWs (cs : List Char) : List Char :=
  ((cs.dropWhile isSpaceChar).reverse.dropWhile isSpaceChar).reverse

/-- Python `str.strip` on a string. -/
def stripString (s : String) : String :=
  String.mk (stripWs s.data)

/-- Python `str.lower` on a string (see `toLowerChar`). -/
def lowerStr (s : String) : String :=
  String.mk (s.data.map toLowerChar)

/-! ### The regex substitution engine used by `_normalize_name`

`LEGAL_TERMS` and `COMMON_WORDS` are alternations of literal words wrapped in
`\b ( ... ) \b`.  Each alternative is a sequence of literal characters and
optional dots (`\.?`).  `re.sub(pattern, '', s)` scans `s` left to right; at a
position with a word boundary it tries the alternatives in order (an
alternative succeeds if its literals match, with the greedy optional dots
backtracking against the trailing `\b`), removes the matched span and resumes
scanning right after it in the original string. -/

/-- One atom of a pattern alternative: a literal character or `\.?`. -/
inductive RAtom where
  | lit (c : Char)
  | optDot
deriving DecidableEq

/-- Literal atoms of a (lower-case) word. -/
def lits (s : String) : List RAtom :=
  s.data.map RAtom.lit

/-- The `\.?` atom. -/
def optD : RAtom := RAtom.optDot

/-- Match a single alternative at the head of `cs`.  `last` is the most recent
consumed character (used for the trailing `\b` check once the atoms are
exhausted).  Returns the last consumed character and the remaining input on
success.  The optional dot is greedy and backtracks, as in Python `re`. -/
def matchAtoms : List RAtom → Char → List Char → Option (Char × List Char)
  | [], last, cs =>
    let nextWord := match cs with
      | [] => false
      | c :: _ => isWordChar c
    if isWordChar last ≠ nextWord then some (last, cs) else none
  | RAtom.lit c :: rest, _, cs =>
    match cs with
    | [] => none
    | x :: xs => if x = c then matchAtoms rest c xs else none
  | RAtom.optDot :: rest, last, cs =>
    match cs with
    | '.' :: xs =>
      match matchAtoms rest '.' xs with
      | some r => some r
      | none => matchAtoms rest last cs
    | _ => matchAtoms rest last cs

/-- Try the alternatives in order at the head of `cs` (regex alternation
preference). -/
def tryAlts (alts : List (List RAtom)) (cs : List Char) : Option (Char × List Char) :=
  match alts with
  | [] => none
  | a :: rest =>
    match matchAtoms a ' ' cs with
    | some r => some r
    | none => tryAlts rest cs

/-- The scanner of `re.sub(r'\b( alts )\b', '', s)`: at each position with a
leading word boundary try `tryAlts`; on a match drop the span, otherwise emit
the character.  `prev` is the character preceding the current position in the
original string; the fuel is an upper bound on the number of steps (each step
consumes at least one character). -/
def subScan (alts : List (List RAtom)) : Nat → Option Char → List Char → List Char
  | 0, _, cs => cs
  | _ + 1, _, [] => []
  | fuel + 1, prev, c :: rest =>
    let prevWord := match prev with
      | none => false
      | some p => isWordChar p
    if prevWord ≠ isWordChar c then
      match tryAlts alts (c :: rest) with
      | some (last, remaining) => subScan alts fuel (some last) remaining
      | none => c :: subScan alts fuel (some c) rest
    else
      c :: subScan alts fuel (some c) rest

/-- The alternatives of `LEGAL_TERMS`, lower-cased (the substitution runs with
`re.IGNORECASE` on an already lower-cased string), in source order. -/
def legalAlts : List (List RAtom) :=
  [ lits "inc" ++ [optD]
  , lits "corp" ++ [optD]
  , lits "corporation"
  , lits "llc"
  , lits "llp"
  , lits "lllp"
  , lits "pllc"
  , lits "lc"
  , lits "co" ++ [optD]
  , lits "company"
  , lits "incorporated"
  , lits "limited"
  , lits "ltd" ++ [optD]
  , lits "plc"
  , lits "p.l.c" ++ [optD]
  , lits "ltd"
  , lits "l.p" ++ [optD]
  , lits "lp"
  , lits "gp"
  , lits "pc"
  , lits "p.c" ++ [optD]
  , lits "pa"
  , lits "p.a" ++ [optD]
  , lits "prof" ++ [optD] ++ lits " corp" ++ [optD]
  , lits "professional corporation"
  , lits "gmbh"
  , lits "ag"
  , lits "kg"
  , lits "ohg"
  , lits "ug"
  , lits "bv"
  , lits "n.v" ++ [optD]
  , lits "nv"
  , lits "pte" ++ [optD] ++ lits " ltd" ++ [optD]
  , lits "sdn" ++ [optD] ++ lits " bhd" ++ [optD]
  , lits "pty" ++ [optD] ++ lits " ltd" ++ [optD]
  , lits "the"
  , lits "a"
  , lits "an"
  , lits "srl"
  , lits "s.r.l" ++ [optD]
  , lits "sa"
  , lits "s.a" ++ [optD]
  , lits "corporación"
  , lits "ltda" ++ [optD]
  , lits "limitada"
  , lits "sociedad"
  , lits "s.e" ++ [optD] ]

/-- The alternatives of `COMMON_WORDS`, in source order. -/
def commonAlts : List (List RAtom) :=
  [ lits "the", lits "de", lits "del", lits "la", lits "los"
  , lits "las", lits "el", lits "y", lits "and", lits "of" ]

/-- Model of `re.sub(r'\([^)]*\)', '', s)` helper: drop through the first `)` if any. -/
def splitAfterClose : List Char → Option (List Char)
  | [] => none
  | c :: rest => if c = ')' then some rest else splitAfterClose rest

/-- Model of `re.sub(r'\([^)]*\)', '', s)`: remove parenthesised spans (an unmatched
`(` is kept, because the regex requires a closing `)`). -/
def removeParensScan : Nat → List Char → List Char
  | 0, cs => cs
  | _ + 1, [] => []
  | fuel + 1, c :: rest =>
    if c = '(' then
      match splitAfterClose rest with
      | some remaining => removeParensScan fuel remaining
      | none => c :: removeParensScan fuel rest
    else
      c :: removeParensScan fuel rest

/-- Model of `re.sub(r'\s+', ' ', s)`: collapse whitespace runs to a single space.
`prevWs` records whether the previous character was whitespace. -/
def collapseSpacesAux : Bool → List Char → List Char
  | _, [] => []
  | prevWs, c :: rest =>
    if isSpaceChar c then
      if prevWs then collapseSpacesAux true rest
      else ' ' :: collapseSpacesAux true rest
    else
      c :: collapseSpacesAux false rest

/-- Model of `RestaurantMatcher._normalize_name`: lower-case, drop parenthesised
content, drop legal suffixes, drop common words, drop punctuation, collapse
whitespace, strip.  The `if name = ""` branch models Python's
`if not name: return ""` (the `isinstance` guard is always satisfied here). -/
def normalizeName (name : String) : String :=
  if name = "" then ""
  else
    let cs := name.data.map toLowerChar
    let cs := removeParensScan cs.length cs
    let cs := subScan legalAlts cs.length none cs
    let cs := subScan commonAlts cs.length none cs
    let cs := cs.filter (fun c => isWordChar c || isSpaceChar c)
    let cs := collapseSpacesAux false cs
    String.mk (stripWs cs)

/-- Model of `_normalize_name` applied to an `Optional[str]` field (Python returns `""`
for `None`). -/
def normalizeNameOpt : Option String → String
  | some s => normalizeName s
  | none => ""

/-! ### Address field extraction (`_extract_postal_code`, `_extract_city`)

`_extract_city` is defined twice in the source class body; the second
definition shadows the first, so only the second is modelled. -/

/-- Scanner for `re.search(r'\b(\d{5})\b', address)`: the first position with
a leading word boundary, five digits, and a trailing word boundary. -/
def extractPostalAux : Nat → Option Char → List Char → Option (List Char)
  | 0, _, _ => none
  | _ + 1, _, [] => none
  | fuel + 1, prev, c :: rest =>
    let prevWord := match prev with
      | none => false
      | some p => isWordChar p
    let five := (c :: rest).take 5
    let after := (c :: rest).drop 5
    let tailOk := match after with
      | [] => true
      | n :: _ => !isWordChar n
    if !prevWord && five.length = 5 && five.all Char.isDigit && tailOk then
      some five
    else
      extractPostalAux fuel (some c) rest

/-- Model of `RestaurantMatcher._extract_postal_code`: first 5-digit run (word-bounded)
in the address, else `""`. -/
def extractPostalCode (address : String) : String :=
  if address = "" then ""
  else
    match extractPostalAux address.data.length none address.data with
    | some ds => String.mk ds
    | none => ""

/-- Python `str.split(',')` on a character list: the comma-separated pieces,
empty pieces included. -/
def splitOnComma : List Char → List (List Char)
  | [] => [[]]
  | c :: rest =>
    if c = ',' then [] :: splitOnComma rest
    else
      match splitOnComma rest with
      | [] => [[c]]
      | piece :: more => (c :: piece) :: more

/-- Model of `address.split(',')`, each part stripped, empty parts dropped. -/
def splitCommaParts (address : String) : List String :=
  ((splitOnComma address.data).map (fun cs => String.mk (stripWs cs))).filter (· ≠ "")

/-- Model of `re.search(r'\d{5}$', s)`: the last five characters exist and are digits. -/
def endsWithFiveDigits (s : String) : Bool :=
  decide (s.data.length ≥ 5) && (s.data.reverse.take 5).all Char.isDigit

/-- Model of `RestaurantMatcher._extract_city` (the second, effective definition):
last comma-separated segment, or the one before it when the last segment ends
in a ZIP; digits removed, stripped. -/
def extractCity (address : String) : String :=
  if address = "" then ""
  else
    let parts := splitCommaParts address
    if parts = [] then ""
    else
      let lastPart := parts.getLastD ""
      let candidate :=
        if endsWithFiveDigits lastPart && decide (parts.length ≥ 2) then
          (parts.get? (parts.length - 2)).getD ""
        else lastPart
      String.mk (stripWs (candidate.data.filter (fun c => !c.isDigit)))

/-! ### Data model (`src/core/models.py`, `src/core/api_models.py`) -/

/-- Model of `RestaurantRecord` (the listing). -/
structure RestaurantRecord where
  name : String
  address : String
  phone : String
  city : String
  postal_code : String
  coordinates : ℚ × ℚ
  google_id : String
  is_closed : Bool
  rating : ℚ
  reviews_count : Nat
  website : Option String
  main_type : Option String
  all_types : List String
deriving DecidableEq

/-- Model of `CorporationSearchRecord` (a search candidate; every field optional). -/
structure CorporationSearchRecord where
  businessEntityId : Option Int := none
  registrationNumber : Option Int := none
  registrationIndex : Option String := none
  corpName : Option String := none
  classEs : Option String := none
  classEn : Option String := none
  profitTypeEs : Option String := none
  profitTypeEn : Option String := none
  statusId : Option Int := none
  statusEs : Option String := none
  statusEn : Option String := none
deriving DecidableEq

/-- Model of `BusinessRecord` (the legal-entity record). -/
structure BusinessRecord where
  legal_name : String
  registration_number : String
  registration_index : String
  status : String
  business_address : Option String := none
  resident_agent_name : Option String := none
  resident_agent_address : Option String := none
deriving DecidableEq

/-- Model of `MatchResult`.  The optional sub-score fields are populated at every
construction site in the matcher (the sentinels pass explicit zero values), so
they are modelled as plain fields. -/
structure MatchResult where
  restaurant : RestaurantRecord
  business : Option BusinessRecord
  confidence_score : ℚ
  match_type : String
  is_accepted : Bool
  name_score : ℚ
  postal_code_match : Bool
  city_match : Bool
  match_reason : String
deriving DecidableEq

namespace MatchingConfig

/-- Model of `MatchingConfig.SCORE_THRESHOLD` (Python int, compared against float
scores; modelled as `ℚ`). -/
def SCORE_THRESHOLD : ℚ := 50

/-- Model of `MatchingConfig.HIGH_CONFIDENCE_THRESHOLD`. -/
def HIGH_CONFIDENCE_THRESHOLD : ℚ := 70

/-- Model of `MatchingConfig.MEDIUM_CONFIDENCE_THRESHOLD`. -/
def MEDIUM_CONFIDENCE_THRESHOLD : ℚ := 50

/-- Model of `MatchingConfig.LOW_CONFIDENCE_THRESHOLD`. -/
def LOW_CONFIDENCE_THRESHOLD : ℚ := 30

/-- Model of `MatchingConfig.POSTAL_CODE_BONUS`. -/
def POSTAL_CODE_BONUS : ℚ := 30

/-- Model of `MatchingConfig.CITY_MATCH_BONUS`. -/
def CITY_MATCH_BONUS : ℚ := 20

end MatchingConfig

/-- Truthiness of an `Optional[str]` Python value. -/
def optTruthy : Option String → Bool
  | none => false
  | some s => s ≠ ""

/-! ### Scoring (`_calculate_match_score`, `determine_match_type`) -/

/-- Decimal digit character. -/
def digitChar (n : Nat) : Char :=
  Char.ofNat (48 + n)

/-- Decimal digits of a natural number (fuel-based so that it reduces in the
kernel; the fuel `n + 1` always suffices). -/
def natDigitsAux : Nat → Nat → List Char
  | 0, _ => []
  | fuel + 1, n =>
    if n < 10 then [digitChar n]
    else natDigitsAux fuel (n / 10) ++ [digitChar (n % 10)]

/-- Decimal rendering of a natural number (Python `str`). -/
def natToStr (n : Nat) : String :=
  String.mk (natDigitsAux (n + 1) n)

/-- Decimal rendering of an integer (Python `str`). -/
def intToStr (n : Int) : String :=
  if n < 0 then "-" ++ natToStr n.natAbs else natToStr n.natAbs

/-- Python `f"...:.1f"` formatting of a score, used only inside the audit
reason string (rounding-mode fidelity of float formatting is not load-bearing
for any claim). -/
def fmtScore (q : ℚ) : String :=
  let s := q * 10 + 1 / 2
  let n : Int := Int.fdiv s.num s.den
  let sign := if n < 0 then "-" else ""
  let m := n.natAbs
  sign ++ natToStr (m / 10) ++ "." ++ natToStr (m % 10)

/-- Model of `RestaurantMatcher._calculate_match_score`: returns
`(final_score, match_reason, postal_code_match, city_match)`. -/
def calculateMatchScore (r : RestaurantRecord) (b : BusinessRecord) (nameScore : ℚ) :
    ℚ × String × Bool × Bool :=
  let part0 := "Name match: " ++ fmtScore nameScore ++ "% (weighted: " ++ fmtScore nameScore ++ "%)"
  let postal : Bool :=
    if r.postal_code ≠ "" ∧ optTruthy b.business_address then
      let bpc := extractPostalCode (b.business_address.getD "")
      if bpc ≠ "" ∧ r.postal_code = bpc then true else false
    else false
  let city : Bool :=
    if r.city ≠ "" ∧ optTruthy b.business_address then
      let bc := extractCity (b.business_address.getD "")
      if bc ≠ "" ∧ lowerStr r.city = lowerStr bc then true else false
    else false
  let bonusTotal : ℚ :=
    (if postal then MatchingConfig.POSTAL_CODE_BONUS else 0) +
    (if city then MatchingConfig.CITY_MATCH_BONUS else 0)
  let parts :=
    [part0] ++ (if postal then ["Postal code bonus: +30"] else []) ++
    (if city then ["City bonus: +20"] else [])
  (nameScore + bonusTotal, String.intercalate "; " parts, postal, city)

/-- Model of `determine_match_type`. -/
def determineMatchType (confidenceScore : ℚ) : String :=
  if confidenceScore ≥ MatchingConfig.HIGH_CONFIDENCE_THRESHOLD then "high"
  else if confidenceScore ≥ MatchingConfig.MEDIUM_CONFIDENCE_THRESHOLD then "medium"
  else "low"

/-- The condition under which the code awards the postal bonus, phrased as in
the spec: a (non-empty) first 5-digit run extracted from the entity's address
equals the listing's postal code. -/
def postalBonusApplies (r : RestaurantRecord) (b : BusinessRecord) : Prop :=
  extractPostalCode (b.business_address.getD "") ≠ "" ∧
  extractPostalCode (b.business_address.getD "") = r.postal_code

instance (r : RestaurantRecord) (b : BusinessRecord) : Decidable (postalBonusApplies r b) := by
  unfold postalBonusApplies; infer_instance

/-- The condition under which the code awards the city bonus: a (non-empty)
city token extracted from the entity's address equals the listing's city
case-insensitively. -/
def cityBonusApplies (r : RestaurantRecord) (b : BusinessRecord) : Prop :=
  extractCity (b.business_address.getD "") ≠ "" ∧
  lowerStr (extractCity (b.business_address.getD "")) = lowerStr r.city

instance (r : RestaurantRecord) (b : BusinessRecord) : Decidable (cityBonusApplies r b) := by
  unfold cityBonusApplies; infer_instance

/-! ### Assistant-response parsing and re-ranking
(`_parse_openai_matches`, `_rank_name_matches_with_llm`)

The library parsers `json.loads` / `ast.literal_eval` are external to this
repository; their combined outcome is modelled as an `Option PyValue`
(`none` when both parsers failed on the cleaned text, which makes
`_parse_openai_matches` take its "not in expected format" branch). -/

/-- A parsed Python value, as produced by `json.loads` or
`ast.literal_eval`. -/
inductive PyValue where
  | str (s : String)
  | int (n : Int)
  | float (q : ℚ)
  | bool (b : Bool)
  | none
  | list (items : List PyValue)
  | dict (entries : List (String × PyValue))

mutual

/-- Python `repr` of a value (used via `str` for non-string values fed into
the candidate lookup; its exact text is not load-bearing for any claim). -/
def pyRepr : PyValue → String
  | PyValue.str s => "\x27" ++ s ++ "\x27"
  | PyValue.int n => intToStr n
  | PyValue.float q => toString q
  | PyValue.bool b => if b then "True" else "False"
  | PyValue.none => "None"
  | PyValue.list items => "[" ++ pyReprList items ++ "]"
  | PyValue.dict entries => "\x7b" ++ pyReprDict entries ++ "\x7d"

/-- Comma-joined `repr`s of list items. -/
def pyReprList : List PyValue → String
  | [] => ""
  | [x] => pyRepr x
  | x :: xs => pyRepr x ++ ", " ++ pyReprList xs

/-- Comma-joined `repr`s of dict entries. -/
def pyReprDict : List (String × PyValue) → String
  | [] => ""
  | [(k, v)] => "\x27" ++ k ++ "\x27: " ++ pyRepr v
  | (k, v) :: xs => "\x27" ++ k ++ "\x27: " ++ pyRepr v ++ ", " ++ pyReprDict xs

end

/-- Python `str(value)`. -/
def pyStr : PyValue → String
  | PyValue.str s => s
  | v => pyRepr v

/-- Python iteration `for x in value`: lists yield their items, strings their
characters, dicts their keys; other values raise `TypeError` (`none` here). -/
def pyIter : PyValue → Option (List PyValue)
  | PyValue.list items => some items
  | PyValue.str s => some (s.data.map (fun c => PyValue.str (String.mk [c])))
  | PyValue.dict entries => some (entries.map (fun e => PyValue.str e.1))
  | _ => Option.none

/-- The lookup map of `_rank_name_matches_with_llm`: a Python dict keyed by
the normalized `corpName` of each record, built by insertion, so the last
record with a given key wins. -/
def legalLookup (records : List CorporationSearchRecord) (k : String) :
    Option CorporationSearchRecord :=
  records.foldl (fun acc rec => if normalizeNameOpt rec.corpName = k then some rec else acc)
    Option.none

/-- Model of `_parse_openai_matches`, applied to the combined parser outcome.
`.error ()` marks the `TypeError` Python raises when iterating a
non-iterable `"matches"` value (that exception escapes this method and is
only caught by the wrapper's `except Exception`). -/
def parseOpenAIMatchesFrom (parsed : Option PyValue)
    (records : List CorporationSearchRecord) :
    Except Unit (List CorporationSearchRecord) :=
  match parsed with
  | Option.none => Except.ok []
  | some (PyValue.dict entries) =>
    match entries.find? (fun e => e.1 == "matches") with
    | Option.none => Except.ok []
    | some entry =>
      match pyIter entry.2 with
      | Option.none => Except.error ()
      | some items =>
        Except.ok (items.filterMap (fun it => legalLookup records (normalizeName (pyStr it))))
  | some _ => Except.ok []

/-- The observable outcome of the `openai_client.chat_completion` call inside
`_rank_name_matches_with_llm`. -/
inductive LlmOutcome where
  | callError
  | noContent
  | content (parsed : Option PyValue)

/-- Model of `_rank_name_matches_with_llm`: any call failure, missing/empty content,
parse failure or unresolvable match list yields `[]`; an in-parse exception is
caught by the surrounding `except Exception` and also yields `[]`. -/
def rankNameMatchesWithLlm (o : LlmOutcome) (records : List CorporationSearchRecord) :
    List CorporationSearchRecord :=
  match o with
  | LlmOutcome.callError => []
  | LlmOutcome.noContent => []
  | LlmOutcome.content parsed =>
    match parseOpenAIMatchesFrom parsed records with
    | Except.error _ => []
    | Except.ok ms => ms

/-! ### The stable descending sort used by `find_best_match`

Python's `list.sort(key=..., reverse=True)` is specified to be stable and to
sort descending by key; `sortDescBy` is the insertion sort with exactly that
extensional behaviour (sortedness and tie-stability are proved below). -/

/-- Insert an element into a list, after every element of strictly greater
key and before the rest (so that an earlier-listed element precedes
equal-keyed later ones). -/
def insertByDesc (key : α → ℚ) (a : α) : List α → List α
  | [] => [a]
  | x :: xs => if key a < key x then x :: insertByDesc key a xs else a :: x :: xs

/-- Stable descending sort by a rational key
(`list.sort(key=..., reverse=True)`). -/
def sortDescBy (key : α → ℚ) : List α → List α
  | [] => []
  | x :: xs => insertByDesc key x (sortDescBy key xs)

/-! ### The matching orchestration (`find_best_match`)

The external collaborators are parameters: `sim` is rapidfuzz
`fuzz.token_sort_ratio`, `srs` the list returned by
`incorporation_searcher.search_business`, `o` the assistant-call outcome and
`details` the behaviour of
`incorporation_searcher.get_business_details_for_records`. -/

/-- Model of `_calculate_name_similarity`: normalize both names, then apply the fuzzy
scorer. -/
def calcNameSimilarity (sim : String → String → ℚ) (name1 name2 : String) : ℚ :=
  sim (normalizeName name1) (normalizeName name2)

/-- Step 1 of `find_best_match`: fuzzy-score every search record with a truthy
`corpName` against the (already normalized) restaurant name, in search order. -/
def scoredRecords (sim : String → String → ℚ) (r : RestaurantRecord)
    (srs : List CorporationSearchRecord) : List (ℚ × CorporationSearchRecord) :=
  srs.filterMap (fun rec =>
    match rec.corpName with
    | some n => if n ≠ "" then some (calcNameSimilarity sim (normalizeName r.name) n, rec)
                else Option.none
    | Option.none => Option.none)

/-- The `top_10_records` prefilter: stable descending sort by fuzzy score,
first 10 records. -/
def top10Records (sim : String → String → ℚ) (r : RestaurantRecord)
    (srs : List CorporationSearchRecord) : List CorporationSearchRecord :=
  ((sortDescBy (fun p => p.1) (scoredRecords sim r srs)).take 10).map (·.2)

/-- The `top_3_records` finally sent to detail resolution: the assistant
ranking when non-empty, else the first 3 of the prefilter. -/
def survivingCandidates (sim : String → String → ℚ) (r : RestaurantRecord)
    (srs : List CorporationSearchRecord) (o : LlmOutcome) : List CorporationSearchRecord :=
  let tops := top10Records sim r srs
  let ranked := rankNameMatchesWithLlm o tops
  if ranked.isEmpty then tops.take 3 else ranked

/-- The `MatchResult` built for one resolved business in step 3 of
`find_best_match`. -/
def mkMatchResult (sim : String → String → ℚ) (r : RestaurantRecord)
    (b : BusinessRecord) : MatchResult :=
  let nameScore := calcNameSimilarity sim r.name b.legal_name
  let res := calculateMatchScore r b nameScore
  { restaurant := r
  , business := some b
  , confidence_score := res.1
  , match_type := determineMatchType res.1
  , is_accepted := decide (res.1 ≥ MatchingConfig.SCORE_THRESHOLD)
  , name_score := nameScore
  , postal_code_match := res.2.2.1
  , city_match := res.2.2.2
  , match_reason := res.2.1 }

/-- The list `all_matches`, one result per resolved business, in resolver
order. -/
def buildMatches (sim : String → String → ℚ) (r : RestaurantRecord)
    (detailed : List BusinessRecord) : List MatchResult :=
  detailed.map (mkMatchResult sim r)

/-- The "no candidates found" sentinel. -/
def noCandidatesSentinel (r : RestaurantRecord) : MatchResult :=
  { restaurant := r, business := Option.none, confidence_score := 0
  , match_type := "none", is_accepted := false, name_score := 0
  , postal_code_match := false, city_match := false
  , match_reason := "No candidates found" }

/-- The "no valid matches found" sentinel. -/
def noValidMatchesSentinel (r : RestaurantRecord) : MatchResult :=
  { restaurant := r, business := Option.none, confidence_score := 0
  , match_type := "none", is_accepted := false, name_score := 0
  , postal_code_match := false, city_match := false
  , match_reason := "No valid matches found" }

/-- Model of `RestaurantMatcher.find_best_match`. -/
def findBestMatch (sim : String → String → ℚ) (r : RestaurantRecord)
    (srs : List CorporationSearchRecord) (o : LlmOutcome)
    (details : List CorporationSearchRecord → List BusinessRecord) : List MatchResult :=
  if srs.isEmpty then [noCandidatesSentinel r]
  else
    let detailed := details (survivingCandidates sim r srs o)
    let sorted := sortDescBy (fun m => m.confidence_score) (buildMatches sim r detailed)
    if sorted.isEmpty then [noValidMatchesSentinel r] else sorted

/-! ### Detail resolution (`src/searcher/searcher.py`, `BusinessRecord`
constructors from `src/core/models.py`, detail models from
`src/core/api_models.py`) -/

/-- Model of `StreetAddressDetail`. -/
structure StreetAddressDetail where
  address1 : Option String := none
  address2 : Option String := none
  city : Option String := none
  zip : Option String := none
deriving DecidableEq

/-- Model of `IndividualNameDetail`. -/
structure IndividualNameDetail where
  firstName : Option String := none
  middleName : Option String := none
  lastName : Option String := none
  surName : Option String := none
deriving DecidableEq

/-- Model of `OrganizationNameDetail`. -/
structure OrganizationNameDetail where
  name : Option String := none
deriving DecidableEq

/-- Model of `CorporationDetail`. -/
structure CorporationDetail where
  corpName : Option String := none
  corpRegisterNumber : Option Int := none
  corpRegisterIndex : Option String := none
  statusEn : Option String := none
deriving DecidableEq

/-- Model of `MainLocationDetail`. -/
structure MainLocationDetail where
  streetAddress : Option StreetAddressDetail := none
deriving DecidableEq

/-- Model of `ResidentAgentDetail`. -/
structure ResidentAgentDetail where
  isIndividual : Option Bool := none
  individualName : Option IndividualNameDetail := none
  organizationName : Option OrganizationNameDetail := none
  streetAddress : Option StreetAddressDetail := none
deriving DecidableEq

/-- Model of `CorporationDetailResponseData`. -/
structure CorporationDetailResponseData where
  corporation : Option CorporationDetail := none
  mainLocation : Option MainLocationDetail := none
  residentAgent : Option ResidentAgentDetail := none
deriving DecidableEq

/-- Join the truthy strings of `parts` with `sep` (the
`parts.append` / `sep.join` idiom of the searcher). -/
def joinTruthy (sep : String) (parts : List (Option String)) : String :=
  String.intercalate sep (parts.filterMap (fun p =>
    match p with
    | some s => if s ≠ "" then some s else Option.none
    | Option.none => Option.none))

/-- Model of `BusinessRecord.from_corporation`.  Pydantic rejects `None` for the
declared `str` fields, so when `corporation` is present but `corpName`,
`corpRegisterIndex` or `statusEn` is `None` the constructor raises
`ValidationError`, modelled as `none`.  `corpRegisterNumber` is routed through
an explicit truthiness test and never reaches the field as `None`. -/
def fromCorporation (corporation : Option CorporationDetail)
    (business_address resident_agent_name resident_agent_address : Option String) :
    Option BusinessRecord :=
  match corporation with
  | Option.none =>
    some { legal_name := "", registration_number := "", registration_index := ""
         , status := "", business_address := business_address
         , resident_agent_name := resident_agent_name
         , resident_agent_address := resident_agent_address }
  | some c =>
    match c.corpName, c.corpRegisterIndex, c.statusEn with
    | some ln, some ri, some st =>
      some { legal_name := ln
           , registration_number :=
               match c.corpRegisterNumber with
               | some n => if n ≠ 0 then intToStr n else ""
               | Option.none => ""
           , registration_index := ri
           , status := st
           , business_address := business_address
           , resident_agent_name := resident_agent_name
           , resident_agent_address := resident_agent_address }
    | _, _, _ => Option.none

/-- Model of `IncorporationSearcher._create_business_record_from_details`. -/
def createBusinessRecordFromDetails (d : CorporationDetailResponseData) :
    Option BusinessRecord :=
  let businessAddress :=
    match d.mainLocation with
    | some ml =>
      match ml.streetAddress with
      | some sa => joinTruthy ", " [sa.address1, sa.address2, sa.city, sa.zip]
      | Option.none => ""
    | Option.none => ""
  let agentName :=
    match d.residentAgent with
    | some ra =>
      if ra.isIndividual = some true ∧ ra.individualName.isSome then
        match ra.individualName with
        | some ind => joinTruthy " " [ind.firstName, ind.middleName, ind.lastName, ind.surName]
        | Option.none => ""
      else
        match ra.organizationName with
        | some org => org.name.getD ""
        | Option.none => ""
    | Option.none => ""
  let agentAddress :=
    match d.residentAgent with
    | some ra =>
      match ra.streetAddress with
      | some sa => stripString (joinTruthy " " [sa.address1, sa.address2])
      | Option.none => ""
    | Option.none => ""
  fromCorporation d.corporation (some businessAddress) (some agentName) (some agentAddress)

/-- Model of `IncorporationSearcher._create_business_record_from_search` (the
summary-fallback constructor). -/
def createBusinessRecordFromSearch (rec : CorporationSearchRecord) : BusinessRecord :=
  { legal_name := rec.corpName.getD ""
  , registration_number :=
      match rec.registrationNumber with
      | some n => if n ≠ 0 then intToStr n else ""
      | Option.none => ""
  , registration_index := rec.registrationIndex.getD ""
  , status := rec.statusEn.getD "" }

/-- Model of `IncorporationSearcher._get_business_details`: the raw fetch outcome
(`fetchRaw`, covering the gateway call, decode and pydantic validation) is
returned only when its `corporation` block is present. -/
def getBusinessDetails
    (fetchRaw : CorporationSearchRecord → Option CorporationDetailResponseData)
    (rec : CorporationSearchRecord) : Option CorporationDetailResponseData :=
  match fetchRaw rec with
  | some d => if d.corporation.isSome then some d else Option.none
  | Option.none => Option.none

/-- Model of `IncorporationSearcher.get_business_details_for_records`: one record per
candidate, detail-built when the detail fetch yields a corporation block,
summary-built otherwise; a candidate whose record construction raises
(`ValidationError`, modelled by `fromCorporation` returning `none`) is
skipped. -/
def getBusinessDetailsForRecords
    (fetchRaw : CorporationSearchRecord → Option CorporationDetailResponseData)
    (records : List CorporationSearchRecord) : List BusinessRecord :=
  records.filterMap (fun rec =>
    match rec.businessEntityId with
    | some id =>
      if id ≠ 0 then
        match getBusinessDetails fetchRaw rec with
        | some d => createBusinessRecordFromDetails d
        | Option.none => some (createBusinessRecordFromSearch rec)
      else some (createBusinessRecordFromSearch rec)
    | Option.none => some (createBusinessRecordFromSearch rec))

/-! ### The gateway retry loop (`src/clients/zyte_client.py`)

`post_request` and `get_request` contain the identical attempt loop; each
attempt's observable outcome is a parameter.  Note that the
`aiohttp.ClientResponseError` the code raises for a non-retryable status is
itself an `aiohttp.ClientError` and is therefore caught by the loop's own
`except (ValueError, aiohttp.ClientError)` clause, which retries while
`attempt < max_retries`. -/

/-- The observable outcome of one Zyte API attempt: a 200 response with a
decodable body (`ok`), an HTTP status (`httpStatus`), or a network/parse
failure (`netError`, covering `aiohttp.ClientError` and `ValueError`). -/
inductive ZyteAttempt where
  | ok
  | httpStatus (code : Nat)
  | netError
deriving DecidableEq

/-- The result of the whole request: success, a raised
`aiohttp.ClientResponseError` carrying the status, or a propagated
network/parse error. -/
inductive ZyteOutcome where
  | success
  | gatewayError (code : Nat)
  | transportError
deriving DecidableEq

/-- Model of `ZyteClient.max_retries`. -/
def zyteMaxRetries : Nat := 3

/-- Model of `ZyteClient.retry_backoff`. -/
def zyteRetryBackoff : Nat := 2

/-- The attempt loop shared by `post_request` and `get_request`.  Returns the
list of executed `asyncio.sleep` delays alongside the final outcome.  The fuel
equals the remaining attempts, so the `0` case is unreachable from the
entry points below. -/
def zyteLoop (resp : Nat → ZyteAttempt) : Nat → Nat → List Nat × ZyteOutcome
  | 0, _ => ([], ZyteOutcome.transportError)
  | fuel + 1, attempt =>
    match resp attempt with
    | ZyteAttempt.ok => ([], ZyteOutcome.success)
    | ZyteAttempt.httpStatus c =>
      if c = 200 then ([], ZyteOutcome.success)
      else if 500 ≤ c ∧ attempt < zyteMaxRetries then
        let rest := zyteLoop resp fuel (attempt + 1)
        (zyteRetryBackoff * attempt :: rest.1, rest.2)
      else if attempt < zyteMaxRetries then
        -- the raised ClientResponseError is caught by the except clause below
        -- the raise site, which sleeps and retries
        let rest := zyteLoop resp fuel (attempt + 1)
        (zyteRetryBackoff * attempt :: rest.1, rest.2)
      else ([], ZyteOutcome.gatewayError c)
    | ZyteAttempt.netError =>
      if attempt < zyteMaxRetries then
        let rest := zyteLoop resp fuel (attempt + 1)
        (zyteRetryBackoff * attempt :: rest.1, rest.2)
      else ([], ZyteOutcome.transportError)

/-- Model of `ZyteClient.post_request` (attempts numbered from 1). -/
def zytePostRequest (resp : Nat → ZyteAttempt) : List Nat × ZyteOutcome :=
  zyteLoop resp zyteMaxRetries 1

/-- Model of `ZyteClient.get_request` (verbatim the same loop as `post_request`). -/
def zyteGetRequest (resp : Nat → ZyteAttempt) : List Nat × ZyteOutcome :=
  zyteLoop resp zyteMaxRetries 1

/-! ### Concrete fixtures used by witnesses and counterexamples -/

/-- A concrete listing (the spec's end-to-end scenario). -/
def sampleRestaurant : RestaurantRecord :=
  { name := "Condal Tapas Restaurant", address := "123 Main St, San Juan, 00908"
  , phone := "787-000-0000", city := "San Juan", postal_code := "00908"
  , coordinates := (18, -66), google_id := "g1", is_closed := false
  , rating := 4, reviews_count := 10, website := none, main_type := some "restaurant"
  , all_types := ["restaurant"] }

/-- A concrete search candidate. -/
def sampleSearchRecord : CorporationSearchRecord :=
  { businessEntityId := some 1, registrationNumber := some 416057
  , registrationIndex := some "416057-1511", corpName := some "Condal Tapas Restaurant LLC"
  , statusEn := some "ACTIVE" }

/-- A concrete resolved business record. -/
def sampleBusiness : BusinessRecord :=
  { legal_name := "Condal Tapas Restaurant LLC", registration_number := "416057"
  , registration_index := "416057-1511", status := "ACTIVE"
  , business_address := some "123 Main St, San Juan, 00908" }

/-- The same resolved business with a different ZIP in its address (no
postal-code match against `sampleRestaurant`). -/
def sampleBusinessOtherZip : BusinessRecord :=
  { legal_name := "Condal Tapas Restaurant LLC", registration_number := "416057"
  , registration_index := "416057-1511", status := "ACTIVE"
  , business_address := some "123 Main St, San Juan, 00907" }

/-- Four distinct candidates whose normalized names are fixed points of the
normalizer. -/
def fourCandidates : List CorporationSearchRecord :=
  [ { corpName := some "alpha one", registrationIndex := some "1-A" }
  , { corpName := some "beta two", registrationIndex := some "2-B" }
  , { corpName := some "gamma three", registrationIndex := some "3-C" }
  , { corpName := some "delta four", registrationIndex := some "4-D" } ]

/-- An assistant outcome whose parsed `"matches"` array names all four
candidates (more than the three the prompt asks for). -/
def fourMatchesOutcome : LlmOutcome :=
  LlmOutcome.content (some (PyValue.dict
    [("matches", PyValue.list
      [ PyValue.str "alpha one", PyValue.str "beta two"
      , PyValue.str "gamma three", PyValue.str "delta four" ])]))

/-- Two candidates for the no-injection witness. -/
def twoCandidates : List CorporationSearchRecord :=
  [ { corpName := some "Other Business Inc.", registrationIndex := some "9-X" }
  , { corpName := some "Condal Inc.", registrationIndex := some "8-Y" } ]

/-- An assistant outcome resolving to the second of `twoCandidates`. -/
def condalOutcome : LlmOutcome :=
  LlmOutcome.content (some (PyValue.dict
    [("matches", PyValue.list [PyValue.str "condal"])]))

/-- A search candidate with no `businessEntityId` and no `registrationIndex`
(every field of `CorporationSearchRecord` is optional on the wire). -/
def indexlessRecord : CorporationSearchRecord :=
  { corpName := some "Condal", statusEn := some "ACTIVE" }

/-- A search candidate with a non-empty registration index. -/
def indexedRecord : CorporationSearchRecord :=
  { corpName := some "Condal", registrationIndex := some "2345-A"
  , statusEn := some "ACTIVE" }

/-! ### Properties of the stable descending sort -/

theorem mem_insertByDesc {key : α → ℚ} {a y : α} :
    ∀ {l : List α}, y ∈ insertByDesc key a l ↔ y = a ∨ y ∈ l := by
  intro l
  induction l with
  | nil => simp [insertByDesc]
  | cons x xs ih =>
    simp only [insertByDesc]
    split
    · simp only [List.mem_cons, ih]
      tauto
    · simp [List.mem_cons]

theorem length_insertByDesc {key : α → ℚ} (a : α) :
    ∀ (l : List α), (insertByDesc key a l).length = l.length + 1 := by
  intro l
  induction l with
  | nil => rfl
  | cons x xs ih =>
    simp only [insertByDesc]
    split
    · simp [ih]
    · simp

theorem mem_sortDescBy {key : α → ℚ} {y : α} :
    ∀ {l : List α}, y ∈ sortDescBy key l ↔ y ∈ l := by
  intro l
  induction l with
  | nil => simp [sortDescBy]
  | cons x xs ih =>
    simp only [sortDescBy]
    rw [mem_insertByDesc]
    simp [ih]

theorem length_sortDescBy {key : α → ℚ} :
    ∀ (l : List α), (sortDescBy key l).length = l.length := by
  intro l
  induction l with
  | nil => rfl
  | cons x xs ih =>
    simp only [sortDescBy]
    rw [length_insertByDesc]
    simp [ih]

theorem sortDescBy_eq_nil_iff {key : α → ℚ} {l : List α} :
    sortDescBy key l = [] ↔ l = [] := by
  constructor
  · intro h
    have := congrArg List.length h
    rw [length_sortDescBy] at this
    exact List.length_eq_zero.mp this
  · intro h
    subst h
    rfl

theorem pairwise_insertByDesc {key : α → ℚ} {a : α} :
    ∀ {l : List α}, List.Pairwise (fun x y => key y ≤ key x) l →
      List.Pairwise (fun x y => key y ≤ key x) (insertByDesc key a l) := by
  intro l
  induction l with
  | nil => intro _; simp [insertByDesc]
  | cons x xs ih =>
    intro h
    rw [List.pairwise_cons] at h
    obtain ⟨hx, hxs⟩ := h
    simp only [insertByDesc]
    split
    · rename_i hlt
      rw [List.pairwise_cons]
      refine ⟨?_, ih hxs⟩
      intro y hy
      rcases mem_insertByDesc.mp hy with rfl | hy'
      · exact le_of_lt hlt
      · exact hx y hy'
    · rename_i hge
      push_neg at hge
      rw [List.pairwise_cons]
      constructor
      · intro y hy
        rcases List.mem_cons.mp hy with rfl | hy'
        · exact hge
        · exact le_trans (hx y hy') hge
      · exact List.pairwise_cons.mpr ⟨hx, hxs⟩

theorem pairwise_sortDescBy {key : α → ℚ} :
    ∀ (l : List α), List.Pairwise (fun x y => key y ≤ key x) (sortDescBy key l) := by
  intro l
  induction l with
  | nil => simp [sortDescBy]
  | cons x xs ih =>
    simp only [sortDescBy]
    exact pairwise_insertByDesc ih

theorem filter_insertByDesc {key : α → ℚ} (c : ℚ) (a : α) :
    ∀ (l : List α),
      (insertByDesc key a l).filter (fun x => decide (key x = c)) =
        if key a = c then a :: l.filter (fun x => decide (key x = c))
        else l.filter (fun x => decide (key x = c)) := by
  intro l
  induction l with
  | nil =>
    by_cases h : key a = c <;> simp [insertByDesc, List.filter, h]
  | cons x xs ih =>
    simp only [insertByDesc]
    split
    · rename_i hlt
      by_cases hxc : key x = c
      · have hac : key a ≠ c := by
          intro h
          rw [h, ← hxc] at hlt
          exact lt_irrefl _ hlt
        simp [List.filter_cons, hxc, hac, ih]
      · simp only [List.filter_cons, ih]
        by_cases hac : key a = c <;> simp [hxc, hac]
    · by_cases hac : key a = c <;> simp [List.filter_cons, hac]

theorem filter_sortDescBy {key : α → ℚ} (c : ℚ) :
    ∀ (l : List α),
      (sortDescBy key l).filter (fun x => decide (key x = c)) =
        l.filter (fun x => decide (key x = c)) := by
  intro l
  induction l with
  | nil => rfl
  | cons x xs ih =>
    simp only [sortDescBy]
    rw [filter_insertByDesc]
    by_cases hxc : key x = c <;> simp [List.filter_cons, hxc, ih]

/-! ### Claim theorems -/

/-- C1: for every listing, `find_best_match` returns a non-empty list; when
the search returns zero candidate records it returns exactly the single
sentinel with match_type `"none"`, confidence 0, not accepted and reason
`"No candidates found"`, and when no entity could be scored it returns the
single sentinel with reason `"No valid matches found"`. -/
theorem find_best_match_nonempty_and_sentinels
    (sim : String → String → ℚ) (r : RestaurantRecord)
    (srs : List CorporationSearchRecord) (o : LlmOutcome)
    (details : List CorporationSearchRecord → List BusinessRecord) :
    findBestMatch sim r srs o details ≠ [] ∧
    (srs = [] → findBestMatch sim r srs o details = [noCandidatesSentinel r]) ∧
    (srs ≠ [] → details (survivingCandidates sim r srs o) = [] →
      findBestMatch sim r srs o details = [noValidMatchesSentinel r]) := by
  refine ⟨?_, ?_, ?_⟩
  · by_cases hs : srs.isEmpty
    · simp [findBestMatch, hs]
    · simp only [findBestMatch, hs, if_false, Bool.false_eq_true]
      split
      · simp
      · rename_i hne
        rw [List.isEmpty_iff] at hne
        exact hne
  · intro h
    subst h
    simp [findBestMatch]
  · intro hs hd
    have hs' : srs.isEmpty = false := by
      simpa [List.isEmpty_iff] using hs
    simp [findBestMatch, hs', hd, buildMatches, sortDescBy]

/-- Witness for C1 at concrete inputs: an empty search yields exactly the
"no candidates" sentinel. -/
theorem find_best_match_sentinel_witness :
    findBestMatch (fun _ _ => 0) sampleRestaurant [] LlmOutcome.callError (fun _ => []) =
      [noCandidatesSentinel sampleRestaurant] :=
  (find_best_match_nonempty_and_sentinels (fun _ _ => 0) sampleRestaurant []
    LlmOutcome.callError (fun _ => [])).2.1 rfl

/-- C2: whenever the assistant call errors, returns no content, yields an
unparseable/in-parse-failing response, or resolves no candidate name, the
re-ranking step returns `[]`, and the orchestrator then uses exactly the first
3 candidates of the fuzzy-similarity-sorted top-10 prefilter (a pure function
of the inputs, hence deterministic). -/
theorem llm_failure_falls_back_to_top3
    (sim : String → String → ℚ) (r : RestaurantRecord)
    (srs : List CorporationSearchRecord) (o : LlmOutcome) :
    (o = LlmOutcome.callError → rankNameMatchesWithLlm o (top10Records sim r srs) = []) ∧
    (o = LlmOutcome.noContent → rankNameMatchesWithLlm o (top10Records sim r srs) = []) ∧
    (∀ parsed, o = LlmOutcome.content parsed →
      parseOpenAIMatchesFrom parsed (top10Records sim r srs) = Except.error () →
      rankNameMatchesWithLlm o (top10Records sim r srs) = []) ∧
    (∀ parsed, o = LlmOutcome.content parsed →
      parseOpenAIMatchesFrom parsed (top10Records sim r srs) = Except.ok [] →
      rankNameMatchesWithLlm o (top10Records sim r srs) = []) ∧
    (rankNameMatchesWithLlm o (top10Records sim r srs) = [] →
      survivingCandidates sim r srs o = (top10Records sim r srs).take 3) := by
  refine ⟨?_, ?_, ?_, ?_, ?_⟩
  · intro h; subst h; rfl
  · intro h; subst h; rfl
  · intro parsed h hp
    subst h
    simp [rankNameMatchesWithLlm, hp]
  · intro parsed h hp
    subst h
    simp [rankNameMatchesWithLlm, hp]
  · intro h
    simp [survivingCandidates, h]

/-- Witness for C2 at concrete inputs: an erroring assistant call makes the
orchestrator keep the first 3 of the prefiltered top-10. -/
theorem llm_fallback_witness :
    survivingCandidates (fun _ _ => 0) sampleRestaurant [sampleSearchRecord]
        LlmOutcome.callError =
      (top10Records (fun _ _ => 0) sampleRestaurant [sampleSearchRecord]).take 3 :=
  (llm_failure_falls_back_to_top3 (fun _ _ => 0) sampleRestaurant [sampleSearchRecord]
    LlmOutcome.callError).2.2.2.2
    ((llm_failure_falls_back_to_top3 (fun _ _ => 0) sampleRestaurant [sampleSearchRecord]
      LlmOutcome.callError).1 rfl)

/-- C3 counterexample: an assistant response whose `"matches"` array names 4
resolvable candidates produces 4 surviving candidates — the code never
enforces the cap of 3 that the prompt requests, so more than 3 candidates can
be passed to detail resolution. -/
theorem surviving_candidates_exceed_three :
    3 < (survivingCandidates (fun _ _ => 0) sampleRestaurant fourCandidates
      fourMatchesOutcome).length := by decide

/-- C3 amended: the fallback path keeps at most 3 survivors, and the
assistant path yields at most one survivor per entry of the assistant's
parsed `"matches"` array — the bound is `max 3 (length of that array)`, not
3, because the requested cap of 3 is not enforced in code. -/
theorem surviving_candidates_bounds
    (sim : String → String → ℚ) (r : RestaurantRecord)
    (srs : List CorporationSearchRecord) (o : LlmOutcome) :
    (rankNameMatchesWithLlm o (top10Records sim r srs) = [] →
      (survivingCandidates sim r srs o).length ≤ 3) ∧
    (∀ parsed entries entry items,
      o = LlmOutcome.content parsed →
      parsed = some (PyValue.dict entries) →
      entries.find? (fun e => e.1 == "matches") = some entry →
      pyIter entry.2 = some items →
      (survivingCandidates sim r srs o).length ≤ max 3 items.length) := by
  constructor
  · intro h
    simp only [survivingCandidates, h, List.isEmpty_nil, if_true]
    simp [List.length_take_le]
  · intro parsed entries entry items ho hp hfind hiter
    subst ho
    subst hp
    simp only [survivingCandidates, rankNameMatchesWithLlm, parseOpenAIMatchesFrom,
      hfind, hiter]
    split
    · exact le_trans (by simp [List.length_take_le]) (le_max_left _ _)
    · exact le_trans (List.length_filterMap_le _ _) (le_max_right _ _)

/-- Witness for the amended C3 bound at the concrete four-match response. -/
theorem surviving_candidates_bounds_witness :
    (survivingCandidates (fun _ _ => 0) sampleRestaurant fourCandidates
      fourMatchesOutcome).length ≤ max 3 4 :=
  (surviving_candidates_bounds (fun _ _ => 0) sampleRestaurant fourCandidates
      fourMatchesOutcome).2
    (some (PyValue.dict
      [("matches", PyValue.list
        [ PyValue.str "alpha one", PyValue.str "beta two"
        , PyValue.str "gamma three", PyValue.str "delta four" ])]))
    [("matches", PyValue.list
      [ PyValue.str "alpha one", PyValue.str "beta two"
      , PyValue.str "gamma three", PyValue.str "delta four" ])]
    ("matches", PyValue.list
      [ PyValue.str "alpha one", PyValue.str "beta two"
      , PyValue.str "gamma three", PyValue.str "delta four" ])
    [ PyValue.str "alpha one", PyValue.str "beta two"
    , PyValue.str "gamma three", PyValue.str "delta four" ]
    rfl rfl rfl rfl

/-- C4 counterexample: normalization is not idempotent.  On `"t.he"` the
punctuation-removal pass (which runs after the word dictionaries) creates the
new word `"the"`, so a second application removes it:
`_normalize_name("t.he") = "the"` but `_normalize_name("the") = ""`. -/
theorem normalize_not_idempotent :
    normalizeName (normalizeName "t.he") ≠ normalizeName "t.he" := by decide

/-- C4 amended: normalization is idempotent for the names the spec tests
(the spec itself claims idempotence "for all tested names"); it is not
idempotent for arbitrary strings. -/
theorem normalize_idempotent_on_tested_names :
    normalizeName (normalizeName "Condal Tapas Restaurant") =
        normalizeName "Condal Tapas Restaurant" ∧
    normalizeName (normalizeName "Condal Inc.") = normalizeName "Condal Inc." ∧
    normalizeName (normalizeName "Condal") = normalizeName "Condal" ∧
    normalizeName (normalizeName "Condal Tapas Restaurant LLC") =
        normalizeName "Condal Tapas Restaurant LLC" ∧
    normalizeName (normalizeName "San Juan") = normalizeName "San Juan" := by
  refine ⟨by decide, by decide, by decide, by decide, by decide⟩

/-- A string lower-cases to the empty string exactly when it is empty. -/
theorem lowerStr_eq_empty_iff (s : String) : lowerStr s = "" ↔ s = "" := by
  obtain ⟨data⟩ := s
  constructor
  · intro h
    have h2 : List.map toLowerChar data = [] := congrArg String.data h
    have h3 : data = [] := List.map_eq_nil_iff.mp h2
    subst h3
    rfl
  · intro h
    rw [h]
    rfl

/-- Decomposition of `_calculate_match_score`: the final score is the name
score plus the postal bonus exactly under `postalBonusApplies` plus the city
bonus exactly under `cityBonusApplies`. -/
theorem calc_score_eq (r : RestaurantRecord) (b : BusinessRecord) (n : ℚ) :
    (calculateMatchScore r b n).1 =
      n + (if postalBonusApplies r b then MatchingConfig.POSTAL_CODE_BONUS else 0)
        + (if cityBonusApplies r b then MatchingConfig.CITY_MATCH_BONUS else 0) := by
  have hp : (if r.postal_code ≠ "" ∧ optTruthy b.business_address = true then
        (if extractPostalCode (b.business_address.getD "") ≠ "" ∧
            r.postal_code = extractPostalCode (b.business_address.getD "") then true
          else false)
      else false) = decide (postalBonusApplies r b) := by
    by_cases hpb : postalBonusApplies r b
    · obtain ⟨h1, h2⟩ := hpb
      have haddr : b.business_address.getD "" ≠ "" := by
        intro h
        exact h1 (by rw [h]; rfl)
      have hopt : optTruthy b.business_address = true := by
        cases hba : b.business_address with
        | none => exact absurd (by rw [hba]; rfl) haddr
        | some s =>
          have hs : s ≠ "" := by rw [hba] at haddr; exact haddr
          simp [optTruthy, hs]
      have hc1 : r.postal_code ≠ "" := by rw [← h2]; exact h1
      rw [if_pos ⟨hc1, hopt⟩, if_pos ⟨h1, h2.symm⟩]
      exact (decide_eq_true ⟨h1, h2⟩).symm
    · rw [decide_eq_false hpb]
      by_cases hc1 : r.postal_code ≠ "" ∧ optTruthy b.business_address = true
      · rw [if_pos hc1]
        by_cases hc2 : extractPostalCode (b.business_address.getD "") ≠ "" ∧
            r.postal_code = extractPostalCode (b.business_address.getD "")
        · exact absurd ⟨hc2.1, hc2.2.symm⟩ hpb
        · rw [if_neg hc2]
      · rw [if_neg hc1]
  have hc : (if r.city ≠ "" ∧ optTruthy b.business_address = true then
        (if extractCity (b.business_address.getD "") ≠ "" ∧
            lowerStr r.city = lowerStr (extractCity (b.business_address.getD "")) then true
          else false)
      else false) = decide (cityBonusApplies r b) := by
    by_cases hcb : cityBonusApplies r b
    · obtain ⟨h1, h2⟩ := hcb
      have haddr : b.business_address.getD "" ≠ "" := by
        intro h
        exact h1 (by rw [h]; rfl)
      have hopt : optTruthy b.business_address = true := by
        cases hba : b.business_address with
        | none => exact absurd (by rw [hba]; rfl) haddr
        | some s =>
          have hs : s ≠ "" := by rw [hba] at haddr; exact haddr
          simp [optTruthy, hs]
      have hc1 : r.city ≠ "" := by
        intro h
        apply h1
        apply (lowerStr_eq_empty_iff _).mp
        rw [h2, h]
        rfl
      rw [if_pos ⟨hc1, hopt⟩, if_pos ⟨h1, h2.symm⟩]
      exact (decide_eq_true ⟨h1, h2⟩).symm
    · rw [decide_eq_false hcb]
      by_cases hc1 : r.city ≠ "" ∧ optTruthy b.business_address = true
      · rw [if_pos hc1]
        by_cases hc2 : extractCity (b.business_address.getD "") ≠ "" ∧
            lowerStr r.city = lowerStr (extractCity (b.business_address.getD ""))
        · exact absurd ⟨hc2.1, hc2.2.symm⟩ hcb
        · rw [if_neg hc2]
      · rw [if_neg hc1]
  simp only [calculateMatchScore, hp, hc, decide_eq_true_eq]
  split <;> split <;> ring

/-- C5: the final score equals the name score plus the fixed postal-code
bonus applied exactly when the first 5-digit run extracted from the entity's
address equals the listing's postal code, plus the fixed city bonus applied
exactly when the extracted city equals the listing's city case-insensitively;
consequently two otherwise-identical scorings that differ only in the
postal-code match differ by exactly the postal bonus constant. -/
theorem match_score_decomposition (r : RestaurantRecord) (n : ℚ) :
    (∀ b : BusinessRecord,
      (calculateMatchScore r b n).1 =
        n + (if postalBonusApplies r b then MatchingConfig.POSTAL_CODE_BONUS else 0)
          + (if cityBonusApplies r b then MatchingConfig.CITY_MATCH_BONUS else 0)) ∧
    (∀ b1 b2 : BusinessRecord,
      postalBonusApplies r b1 → ¬ postalBonusApplies r b2 →
      (cityBonusApplies r b1 ↔ cityBonusApplies r b2) →
      (calculateMatchScore r b1 n).1 =
        (calculateMatchScore r b2 n).1 + MatchingConfig.POSTAL_CODE_BONUS) := by
  refine ⟨fun b => calc_score_eq r b n, ?_⟩
  intro b1 b2 hp1 hp2 hciff
  rw [calc_score_eq, calc_score_eq, if_pos hp1, if_neg hp2]
  by_cases hcb : cityBonusApplies r b1
  · rw [if_pos hcb, if_pos (hciff.mp hcb)]
    ring
  · rw [if_neg hcb, if_neg (fun h => hcb (hciff.mpr h))]
    ring

/-- Witness for C5 at concrete inputs: the same listing scored against the
same business with and without the matching ZIP differs by exactly the postal
bonus. -/
theorem match_score_decomposition_witness :
    postalBonusApplies sampleRestaurant sampleBusiness ∧
    ¬ postalBonusApplies sampleRestaurant sampleBusinessOtherZip ∧
    (calculateMatchScore sampleRestaurant sampleBusiness 100).1 =
      (calculateMatchScore sampleRestaurant sampleBusinessOtherZip 100).1 +
        MatchingConfig.POSTAL_CODE_BONUS :=
  ⟨by decide, by decide,
    (match_score_decomposition sampleRestaurant 100).2 sampleBusiness sampleBusinessOtherZip
      (by decide) (by decide) (by decide)⟩

/-- C6 counterexample: a candidate with no `businessEntityId` and no
`registrationIndex` takes the summary-fallback path and yields a successfully
created record whose `registration_index` is the empty string
(`record.registrationIndex or ''`). -/
theorem fallback_record_empty_registration_index :
    (getBusinessDetailsForRecords (fun _ => none) [indexlessRecord]).map
        (fun b => b.registration_index) = [""] := rfl

/-- The fallback constructor copies the candidate's `registrationIndex`,
defaulting to the empty string. -/
theorem createFromSearch_registration_index (rec : CorporationSearchRecord) :
    (createBusinessRecordFromSearch rec).registration_index =
      rec.registrationIndex.getD "" := rfl

/-- A successful `from_corporation` call (with a corporation block) carries
the block's `corpRegisterIndex` into `registration_index`. -/
theorem fromCorporation_registration_index
    (c : CorporationDetail) (a1 a2 a3 : Option String) (b : BusinessRecord)
    (h : fromCorporation (some c) a1 a2 a3 = some b) :
    ∃ ri, c.corpRegisterIndex = some ri ∧ b.registration_index = ri := by
  cases hcn : c.corpName with
  | none => simp [fromCorporation, hcn] at h
  | some ln =>
    cases hri : c.corpRegisterIndex with
    | none => simp [fromCorporation, hcn, hri] at h
    | some ri =>
      cases hst : c.statusEn with
      | none => simp [fromCorporation, hcn, hri, hst] at h
      | some st =>
        refine ⟨ri, rfl, ?_⟩
        simp only [fromCorporation, hcn, hri, hst, Option.some.injEq] at h
        rw [← h]

/-- Model of `_get_business_details` returns a payload only when the raw fetch
succeeded and its corporation block is present. -/
theorem getBusinessDetails_some
    (fetchRaw : CorporationSearchRecord → Option CorporationDetailResponseData)
    (rec : CorporationSearchRecord) (d : CorporationDetailResponseData)
    (h : getBusinessDetails fetchRaw rec = some d) :
    fetchRaw rec = some d ∧ d.corporation.isSome = true := by
  simp only [getBusinessDetails] at h
  cases hfr : fetchRaw rec with
  | none => rw [hfr] at h; exact absurd h (by simp)
  | some d0 =>
    rw [hfr] at h
    have h2 : (if d0.corporation.isSome = true then some d0 else Option.none) = some d := h
    by_cases hcs : d0.corporation.isSome = true
    · rw [if_pos hcs] at h2
      cases Option.some.inj h2
      exact ⟨rfl, hcs⟩
    · rw [if_neg hcs] at h2
      exact absurd h2 (by simp)

/-- C6 amended: a successfully created record mirrors its source index field:
the fallback path copies the candidate's `registrationIndex` (defaulting to
empty when absent) and the detail path copies the detail response's
`corpRegisterIndex` (creation raises and the candidate is skipped when it is
absent).  Hence every created record has a non-empty `registration_index`
provided the source index fields are non-empty strings. -/
theorem registration_index_nonempty_of_sources
    (fetchRaw : CorporationSearchRecord → Option CorporationDetailResponseData)
    (records : List CorporationSearchRecord)
    (hrec : ∀ rec ∈ records, ∃ s, rec.registrationIndex = some s ∧ s ≠ "")
    (hdet : ∀ rec d c s, fetchRaw rec = some d → d.corporation = some c →
      c.corpRegisterIndex = some s → s ≠ "") :
    ∀ b ∈ getBusinessDetailsForRecords fetchRaw records, b.registration_index ≠ "" := by
  intro b hb
  simp only [getBusinessDetailsForRecords, List.mem_filterMap] at hb
  obtain ⟨rec, hmem, hf⟩ := hb
  have hfallback : createBusinessRecordFromSearch rec = b → b.registration_index ≠ "" := by
    intro he
    obtain ⟨s, hs, hsne⟩ := hrec rec hmem
    rw [← he, createFromSearch_registration_index, hs]
    exact hsne
  cases hid : rec.businessEntityId with
  | none =>
    rw [hid] at hf
    exact hfallback (Option.some.inj hf)
  | some id =>
    rw [hid] at hf
    have hf1 : (if id ≠ 0 then
        (match getBusinessDetails fetchRaw rec with
          | some d => createBusinessRecordFromDetails d
          | Option.none => some (createBusinessRecordFromSearch rec))
        else some (createBusinessRecordFromSearch rec)) = some b := hf
    by_cases hz : id ≠ 0
    · rw [if_pos hz] at hf1
      cases hgd : getBusinessDetails fetchRaw rec with
      | none =>
        rw [hgd] at hf1
        exact hfallback (Option.some.inj hf1)
      | some d =>
        rw [hgd] at hf1
        have hfd : createBusinessRecordFromDetails d = some b := hf1
        obtain ⟨hfr, hcs⟩ := getBusinessDetails_some fetchRaw rec d hgd
        cases hcorp : d.corporation with
        | none => rw [hcorp] at hcs; exact absurd hcs (by simp)
        | some c =>
          simp only [createBusinessRecordFromDetails] at hfd
          rw [hcorp] at hfd
          obtain ⟨ri, hri, hbi⟩ := fromCorporation_registration_index c _ _ _ b hfd
          rw [hbi]
          exact hdet rec d c ri hfr hcorp hri
    · rw [if_neg hz] at hf1
      exact hfallback (Option.some.inj hf1)

/-- Witness for the amended C6 invariant at concrete inputs. -/
theorem registration_index_nonempty_witness :
    (createBusinessRecordFromSearch indexedRecord).registration_index ≠ "" :=
  registration_index_nonempty_of_sources (fun _ => none) [indexedRecord]
    (by
      intro rec hmem
      rw [List.mem_singleton] at hmem
      subst hmem
      exact ⟨"2345-A", rfl, by decide⟩)
    (by
      intro rec d c s hf
      exact absurd hf (by simp))
    (createBusinessRecordFromSearch indexedRecord)
    (by decide)

/-- C7 evaluation at the failing input: a client error (HTTP 404 on every
attempt) is retried with the linear delays `2*1, 2*2` and only raised after
the third attempt, because the raised `ClientResponseError` is itself an
`aiohttp.ClientError` and is caught by the loop's own retry handler — it is
not raised "instead of being retried further" as the claim states.  A
persisting 5xx behaves identically (same linear delays, error carrying the
status), and a transient 5xx is retried with delay `base_delay * 1` before
succeeding. -/
theorem client_error_retried_eval :
    zytePostRequest (fun _ => ZyteAttempt.httpStatus 404) =
        ([2, 4], ZyteOutcome.gatewayError 404) ∧
    zyteGetRequest (fun _ => ZyteAttempt.httpStatus 404) =
        ([2, 4], ZyteOutcome.gatewayError 404) ∧
    zytePostRequest (fun _ => ZyteAttempt.httpStatus 503) =
        ([2, 4], ZyteOutcome.gatewayError 503) ∧
    zytePostRequest (fun n => if n = 1 then ZyteAttempt.httpStatus 503 else ZyteAttempt.ok) =
        ([2], ZyteOutcome.success) := by
  refine ⟨rfl, rfl, rfl, rfl⟩

/-- C8: when candidates exist and detail resolution yields at least one
entity, `find_best_match` returns the built results sorted descending by
confidence score, and results of equal score keep the relative order in which
the resolver produced their entities (stable tie-break, witnessed by the
per-score filtrations being unchanged). -/
theorem find_best_match_sorted_stable
    (sim : String → String → ℚ) (r : RestaurantRecord)
    (srs : List CorporationSearchRecord) (o : LlmOutcome)
    (details : List CorporationSearchRecord → List BusinessRecord)
    (hs : srs ≠ [])
    (hd : details (survivingCandidates sim r srs o) ≠ []) :
    List.Pairwise (fun x y : MatchResult => y.confidence_score ≤ x.confidence_score)
        (findBestMatch sim r srs o details) ∧
    ∀ c : ℚ,
      (findBestMatch sim r srs o details).filter
          (fun m => decide (m.confidence_score = c)) =
        (buildMatches sim r (details (survivingCandidates sim r srs o))).filter
          (fun m => decide (m.confidence_score = c)) := by
  have hs' : srs.isEmpty = false := by simpa [List.isEmpty_iff] using hs
  have hbm : buildMatches sim r (details (survivingCandidates sim r srs o)) ≠ [] := by
    simpa [buildMatches] using hd
  have hsorted :
      sortDescBy (fun m : MatchResult => m.confidence_score)
        (buildMatches sim r (details (survivingCandidates sim r srs o))) ≠ [] := by
    intro h
    exact hbm (sortDescBy_eq_nil_iff.mp h)
  have heq : findBestMatch sim r srs o details =
      sortDescBy (fun m : MatchResult => m.confidence_score)
        (buildMatches sim r (details (survivingCandidates sim r srs o))) := by
    simp only [findBestMatch, hs', Bool.false_eq_true, if_false]
    split
    · rename_i hemp
      rw [List.isEmpty_iff] at hemp
      exact absurd hemp hsorted
    · rfl
  rw [heq]
  exact ⟨pairwise_sortDescBy _, fun c => filter_sortDescBy c _⟩

/-- Witness for C8 at concrete inputs. -/
theorem find_best_match_sorted_stable_witness :
    List.Pairwise (fun x y : MatchResult => y.confidence_score ≤ x.confidence_score)
        (findBestMatch (fun _ _ => 0) sampleRestaurant [sampleSearchRecord]
          LlmOutcome.callError (fun _ => [sampleBusiness, sampleBusinessOtherZip])) :=
  (find_best_match_sorted_stable (fun _ _ => 0) sampleRestaurant [sampleSearchRecord]
    LlmOutcome.callError (fun _ => [sampleBusiness, sampleBusinessOtherZip])
    (by decide) (by decide)).1

/-- C9 counterexample: `_parse_openai_matches` is not total.  On the parsed
response of the assistant text with a non-iterable `"matches"` value (for
example the valid JSON body whose single key `"matches"` holds the integer 5),
iterating the value raises `TypeError`, which escapes the method (only the
wrapper's `except Exception` later absorbs it). -/
theorem parse_openai_matches_raises :
    parseOpenAIMatchesFrom (some (PyValue.dict [("matches", PyValue.int 5)])) [] =
      Except.error () := rfl

/-- The dict lookup of `_rank_name_matches_with_llm` only ever returns one of
the records it was built from. -/
theorem legalLookup_mem
    (records : List CorporationSearchRecord) (k : String)
    (rec : CorporationSearchRecord) (h : legalLookup records k = some rec) :
    rec ∈ records := by
  have aux : ∀ (l : List CorporationSearchRecord) (acc : Option CorporationSearchRecord),
      l.foldl (fun acc r => if normalizeNameOpt r.corpName = k then some r else acc) acc =
        some rec →
      acc = some rec ∨ rec ∈ l := by
    intro l
    induction l with
    | nil => intro acc h'; exact Or.inl h'
    | cons x xs ih =>
      intro acc h'
      rw [List.foldl_cons] at h'
      rcases ih _ h' with hacc | hmem
      · have hacc2 : (if normalizeNameOpt x.corpName = k then some x else acc) = some rec :=
          hacc
        by_cases hc : normalizeNameOpt x.corpName = k
        · rw [if_pos hc] at hacc2
          exact Or.inr (List.mem_cons.mpr (Or.inl (Option.some.inj hacc2).symm))
        · rw [if_neg hc] at hacc2
          exact Or.inl hacc2
      · exact Or.inr (List.mem_cons.mpr (Or.inr hmem))
  rcases aux records Option.none h with hacc | hmem
  · exact absurd hacc (by simp)
  · exact hmem

/-- Every record a successful `_parse_openai_matches` run returns comes from
the input candidate list. -/
theorem parse_matches_subset
    (parsed : Option PyValue) (records : List CorporationSearchRecord)
    (ms : List CorporationSearchRecord)
    (h : parseOpenAIMatchesFrom parsed records = Except.ok ms) :
    ∀ rec ∈ ms, rec ∈ records := by
  intro rec hrec
  cases parsed with
  | none =>
    simp only [parseOpenAIMatchesFrom, Except.ok.injEq] at h
    subst h
    simp at hrec
  | some v =>
    cases v with
    | dict entries =>
      simp only [parseOpenAIMatchesFrom] at h
      cases hfind : entries.find? (fun e => e.1 == "matches") with
      | none =>
        rw [hfind] at h
        have h2 : Except.ok ([] : List CorporationSearchRecord) = Except.ok ms := h
        injection h2 with h3
        rw [← h3] at hrec
        simp at hrec
      | some entry =>
        rw [hfind] at h
        have h1 : (match pyIter entry.2 with
            | Option.none => (Except.error () : Except Unit (List CorporationSearchRecord))
            | some items =>
              Except.ok (items.filterMap
                (fun it => legalLookup records (normalizeName (pyStr it))))) =
            Except.ok ms := h
        cases hiter : pyIter entry.2 with
        | none =>
          rw [hiter] at h1
          have h2 : (Except.error () : Except Unit (List CorporationSearchRecord)) =
              Except.ok ms := h1
          exact absurd h2 (by simp)
        | some items =>
          rw [hiter] at h1
          have h2 : Except.ok (items.filterMap
              (fun it => legalLookup records (normalizeName (pyStr it)))) =
              Except.ok ms := h1
          injection h2 with h3
          rw [← h3] at hrec
          simp only [List.mem_filterMap] at hrec
          obtain ⟨it, _, hlk⟩ := hrec
          exact legalLookup_mem records (normalizeName (pyStr it)) rec hlk
    | str s =>
      simp only [parseOpenAIMatchesFrom, Except.ok.injEq] at h
      subst h
      simp at hrec
    | int n =>
      simp only [parseOpenAIMatchesFrom, Except.ok.injEq] at h
      subst h
      simp at hrec
    | float q =>
      simp only [parseOpenAIMatchesFrom, Except.ok.injEq] at h
      subst h
      simp at hrec
    | bool bb =>
      simp only [parseOpenAIMatchesFrom, Except.ok.injEq] at h
      subst h
      simp at hrec
    | none =>
      simp only [parseOpenAIMatchesFrom, Except.ok.injEq] at h
      subst h
      simp at hrec
    | list items =>
      simp only [parseOpenAIMatchesFrom, Except.ok.injEq] at h
      subst h
      simp at hrec

/-- C9 amended: the re-ranking wrapper is total (every assistant outcome,
including in-parse exceptions, yields a list) and can never inject a
candidate: every record it returns is an element of the input candidate
list, because matches are resolved only through the lookup map keyed by the
normalized names of the input candidates.  The parse step alone is not total
(see the counterexample), but its exceptions are confined to the wrapper. -/
theorem rank_llm_no_injection (o : LlmOutcome) (records : List CorporationSearchRecord) :
    ∀ rec ∈ rankNameMatchesWithLlm o records, rec ∈ records := by
  intro rec hrec
  cases o with
  | callError => simp [rankNameMatchesWithLlm] at hrec
  | noContent => simp [rankNameMatchesWithLlm] at hrec
  | content parsed =>
    simp only [rankNameMatchesWithLlm] at hrec
    cases hp : parseOpenAIMatchesFrom parsed records with
    | error e => rw [hp] at hrec; simp at hrec
    | ok ms =>
      rw [hp] at hrec
      have hrec2 : rec ∈ ms := hrec
      exact parse_matches_subset parsed records ms hp rec hrec2

/-- Witness for C9 at concrete inputs: the record the assistant named is one
of the two input candidates. -/
theorem rank_llm_no_injection_witness :
    { corpName := some "Condal Inc.", registrationIndex := some "8-Y" :
        CorporationSearchRecord } ∈ twoCandidates :=
  rank_llm_no_injection condalOutcome twoCandidates
    { corpName := some "Condal Inc.", registrationIndex := some "8-Y" }
    (by decide)

/-- C10: every `MatchResult` built for a scored entity carries a tier in
`high`/`medium`/`low` (the tier `"none"` only occurs on the sentinels, which
carry no business, zero score and `is_accepted = false`), and every accepted
result is `high` or `medium`, because the acceptance threshold equals the
medium-confidence threshold. -/
theorem match_type_invariants
    (sim : String → String → ℚ) (r : RestaurantRecord)
    (srs : List CorporationSearchRecord) (o : LlmOutcome)
    (details : List CorporationSearchRecord → List BusinessRecord) :
    ∀ m ∈ findBestMatch sim r srs o details,
      (m.business.isSome = true →
        (m.match_type = "high" ∨ m.match_type = "medium" ∨ m.match_type = "low")) ∧
      (m.match_type = "none" →
        m.business = Option.none ∧ m.confidence_score = 0 ∧ m.is_accepted = false) ∧
      (m.is_accepted = true → (m.match_type = "high" ∨ m.match_type = "medium")) := by
  intro m hm
  have sentinel_case : ∀ r0 : RestaurantRecord,
      m = noCandidatesSentinel r0 ∨ m = noValidMatchesSentinel r0 →
      (m.business.isSome = true →
        (m.match_type = "high" ∨ m.match_type = "medium" ∨ m.match_type = "low")) ∧
      (m.match_type = "none" →
        m.business = Option.none ∧ m.confidence_score = 0 ∧ m.is_accepted = false) ∧
      (m.is_accepted = true → (m.match_type = "high" ∨ m.match_type = "medium")) := by
    intro r0 hsent
    rcases hsent with h | h <;> subst h <;>
      exact ⟨fun hs => by simp [noCandidatesSentinel, noValidMatchesSentinel] at hs,
        fun _ => ⟨rfl, rfl, rfl⟩,
        fun ha => by simp [noCandidatesSentinel, noValidMatchesSentinel] at ha⟩
  have scored_case : ∀ b : BusinessRecord, m = mkMatchResult sim r b →
      (m.business.isSome = true →
        (m.match_type = "high" ∨ m.match_type = "medium" ∨ m.match_type = "low")) ∧
      (m.match_type = "none" →
        m.business = Option.none ∧ m.confidence_score = 0 ∧ m.is_accepted = false) ∧
      (m.is_accepted = true → (m.match_type = "high" ∨ m.match_type = "medium")) := by
    intro b hb
    subst hb
    refine ⟨fun _ => ?_, fun hn => ?_, fun ha => ?_⟩
    · simp only [mkMatchResult, determineMatchType]
      split
      · exact Or.inl rfl
      · split
        · exact Or.inr (Or.inl rfl)
        · exact Or.inr (Or.inr rfl)
    · exfalso
      revert hn
      simp only [mkMatchResult, determineMatchType]
      split
      · intro hn; exact absurd hn (by decide)
      · split
        · intro hn; exact absurd hn (by decide)
        · intro hn; exact absurd hn (by decide)
    · have hacc : (calculateMatchScore r b
          (calcNameSimilarity sim r.name b.legal_name)).1 ≥
          MatchingConfig.SCORE_THRESHOLD := by
        have := ha
        simp only [mkMatchResult, decide_eq_true_eq] at this
        exact this
      simp only [mkMatchResult, determineMatchType]
      split
      · exact Or.inl rfl
      · rename_i hhigh
        split
        · exact Or.inr rfl
        · rename_i hmed
          exfalso
          apply hmed
          calc MatchingConfig.MEDIUM_CONFIDENCE_THRESHOLD
              = MatchingConfig.SCORE_THRESHOLD := by norm_num [MatchingConfig.MEDIUM_CONFIDENCE_THRESHOLD, MatchingConfig.SCORE_THRESHOLD]
            _ ≤ _ := hacc
  simp only [findBestMatch] at hm
  by_cases hs : srs.isEmpty
  · rw [if_pos hs] at hm
    rw [List.mem_singleton] at hm
    exact sentinel_case r (Or.inl hm)
  · rw [if_neg hs] at hm
    by_cases hd : (sortDescBy (fun m : MatchResult => m.confidence_score)
        (buildMatches sim r (details (survivingCandidates sim r srs o)))).isEmpty
    · rw [if_pos hd] at hm
      rw [List.mem_singleton] at hm
      exact sentinel_case r (Or.inr hm)
    · rw [if_neg hd] at hm
      have hm2 : m ∈ buildMatches sim r (details (survivingCandidates sim r srs o)) :=
        mem_sortDescBy.mp hm
      simp only [buildMatches, List.mem_map] at hm2
      obtain ⟨b, _, hb⟩ := hm2
      exact scored_case b hb.symm


set_option maxRecDepth 4000

/-- Witness for C10 at concrete inputs: the scored result for the sample
business carries a real tier. -/
theorem match_type_invariants_witness :
    (mkMatchResult (fun _ _ => 0) sampleRestaurant sampleBusiness).match_type = "high" ∨
    (mkMatchResult (fun _ _ => 0) sampleRestaurant sampleBusiness).match_type = "medium" ∨
    (mkMatchResult (fun _ _ => 0) sampleRestaurant sampleBusiness).match_type = "low" :=
  ((match_type_invariants (fun _ _ => 0) sampleRestaurant [sampleSearchRecord]
    LlmOutcome.callError (fun _ => [sampleBusiness])
    (mkMatchResult (fun _ _ => 0) sampleRestaurant sampleBusiness)
    (of_decide_eq_true (by with_unfolding_all rfl))).1)
    (of_decide_eq_true (by with_unfolding_all rfl))
